import Mathlib

/-!
Verification of the foreign-function marshaling layer of openssl-web-js.

The repository consists of a TypeScript facade (src/src/index.ts, class
OpenSSL) over an Emscripten-compiled OpenSSL binary, plus the C shim that
the binary is built from (the second half of src/src/index.ts).  This file
shallowly embeds the facade:

* foreign (WASM linear-memory) heap traffic is recorded as a trace of
  events (allocations, frees, foreign-procedure invocations);
* the behaviour of the foreign side a single operation can observe
  (pointers returned by the allocator, the status code of the invoked
  procedure, the bytes it writes, the diagnostic string) is an oracle
  packaged in an environment record;
* JavaScript byte buffers are lists of naturals below 256, JavaScript
  strings are lists of characters, and fallible operations return an
  Except value carrying the thrown error message.

The OpenSSL BIO base64 codec lives in the external OpenSSL sources, not in
this repository; it is modelled from the spec as standard base64 (RFC 4648
alphabet, no line breaks), which is what the shim configures with
BIO_FLAGS_BASE64_NO_NL.
-/

/-- An observable event on the foreign heap boundary: an allocation call
(with the pointer it returned and the requested size), a free call, or the
invocation of a named foreign procedure. -/
inductive Ev where
  | alloc (ptr : Nat) (size : Nat)
  | free (ptr : Nat)
  | invoke (name : String)
deriving DecidableEq, Repr

/-- Pointers returned by the allocation calls of a trace, in order. -/
def allocPtrs (t : List Ev) : List Nat :=
  t.filterMap fun e => match e with
    | .alloc p _ => some p
    | _ => none

/-- Pointers passed to the free calls of a trace, in order. -/
def freePtrs (t : List Ev) : List Nat :=
  t.filterMap fun e => match e with
    | .free p => some p
    | _ => none

/-- Oracle for everything the foreign side decides during one operation:
the pointer returned by the n-th allocation on the foreign heap (counting
both the _malloc calls of the facade and the malloc the C shim performs for
a base64 result buffer), the status code the invoked procedure returns, the
bytes it writes into its output buffer, residual heap bytes, and the
diagnostic produced by get_error_string. -/
structure Env where
  allocs : Nat → Nat
  status : Nat
  foreignOut : Nat → Nat
  heap : Nat → Nat
  errStr : List Char

/-- Decidable form of: every element of the list is a byte value. -/
def isBytes (l : List Nat) : Bool := l.all fun x => x < 256

/-- Decidable form of: every character of the string is in the ASCII range. -/
def isAscii (s : List Char) : Bool := s.all fun c => c.toNat < 128

/-! JavaScript host primitives used by the facade: TextEncoder (UTF-8
encoding), Emscripten stringToUTF8 (bounded UTF-8 write with a NUL
terminator) and UTF8ToString (NUL-terminated read), parseInt with radix 16,
and the Uint8Array element coercion. -/

/-- UTF-8 encoding of one Unicode scalar value. -/
def utf8Bytes (c : Char) : List Nat :=
  let u := c.toNat
  if u < 128 then [u]
  else if u < 2048 then [192 + u / 64, 128 + u % 64]
  else if u < 65536 then [224 + u / 4096, 128 + u / 64 % 64, 128 + u % 64]
  else [240 + u / 262144, 128 + u / 4096 % 64, 128 + u / 64 % 64, 128 + u % 64]

/-- TextEncoder.encode: UTF-8 bytes of a string. -/
def utf8Encode (s : List Char) : List Nat := (s.map utf8Bytes).flatten

/-- Greedy prefix of the UTF-8 encoding that fits in the given byte budget,
stopping at a character boundary (Emscripten stringToUTF8 write loop). -/
def utf8Trunc : List Char → Nat → List Nat
  | [], _ => []
  | c :: rest, budget =>
    let bs := utf8Bytes c
    if bs.length ≤ budget then bs ++ utf8Trunc rest (budget - bs.length)
    else []

/-- Bytes written by Emscripten stringToUTF8 with the given maxBytesToWrite:
at most maxBytesToWrite - 1 content bytes followed by a NUL terminator;
nothing at all when the limit is zero. -/
def stringToUTF8Bytes (s : List Char) (maxBytesToWrite : Nat) : List Nat :=
  if maxBytesToWrite = 0 then []
  else utf8Trunc s (maxBytesToWrite - 1) ++ [0]

/-- Emscripten UTF8ToString on single-byte (ASCII-range) content, the only
content the facade reads back this way: take bytes up to the NUL terminator
and view each one as a character. -/
def utf8ToStringAscii (bytes : List Nat) : List Char :=
  (bytes.takeWhile fun b => b ≠ 0).map Char.ofNat

/-- JavaScript whitespace recognised by parseInt (space and the usual
control whitespace range). -/
def isJsSpace (c : Char) : Bool :=
  c.toNat == 32 || (9 ≤ c.toNat && c.toNat ≤ 13)

/-- Hexadecimal digit test of parseInt with radix 16. -/
def isHexDigitCh (c : Char) : Bool :=
  (48 ≤ c.toNat && c.toNat ≤ 57) || (97 ≤ c.toNat && c.toNat ≤ 102)
    || (65 ≤ c.toNat && c.toNat ≤ 70)

/-- Value of a hexadecimal digit character. -/
def hexVal (c : Char) : Nat :=
  if c.toNat ≤ 57 then c.toNat - 48
  else if c.toNat ≤ 70 then c.toNat - 55
  else c.toNat - 87

/-- Digit-parsing part of parseInt with radix 16: strip an optional 0x or
0X prefix, then read the longest run of hexadecimal digits; no digits means
NaN (none). -/
def parseHexDigits (s : List Char) : Option Nat :=
  let body := match s with
    | '0' :: x :: rest => if x = 'x' || x = 'X' then rest else s
    | _ => s
  let ds := body.takeWhile isHexDigitCh
  if ds.isEmpty then none
  else some (ds.foldl (fun acc c => acc * 16 + hexVal c) 0)

/-- JavaScript parseInt(s, 16): skip leading whitespace, read an optional
sign, then parse hexadecimal digits; none models NaN. -/
def parseIntHex (s : List Char) : Option Int :=
  match s.dropWhile isJsSpace with
  | '-' :: rest => (parseHexDigits rest).map fun n => -(n : Int)
  | '+' :: rest => (parseHexDigits rest).map fun n => (n : Int)
  | s1 => (parseHexDigits s1).map fun n => (n : Int)

/-- Storing a parseInt result into a Uint8Array element: NaN becomes 0,
other values are taken modulo 256 (ToUint8 semantics). -/
def toUint8 : Option Int → Nat
  | none => 0
  | some v => (v % 256).toNat

/-! The base64 codec of the C shim.  The shim (base64_encode and
base64_decode in src/src/index.ts) drives OpenSSL BIO objects configured
with BIO_FLAGS_BASE64_NO_NL; those BIO internals are external to the
repository, so the codec itself is modelled from the spec as standard
base64.  Byte 61 is the padding character. -/

/-- RFC 4648 base64 alphabet as byte values: A-Z, a-z, 0-9, plus, slash. -/
def b64Table : List Nat :=
  [65, 66, 67, 68, 69, 70, 71, 72, 73, 74, 75, 76, 77, 78, 79, 80, 81, 82,
   83, 84, 85, 86, 87, 88, 89, 90,
   97, 98, 99, 100, 101, 102, 103, 104, 105, 106, 107, 108, 109, 110, 111,
   112, 113, 114, 115, 116, 117, 118, 119, 120, 121, 122,
   48, 49, 50, 51, 52, 53, 54, 55, 56, 57, 43, 47]

/-- Byte of the base64 alphabet at a 6-bit index. -/
def encB (n : Nat) : Nat := b64Table.getD n 61

/-- Index of a byte in the base64 alphabet (64 when absent). -/
def decB (v : Nat) : Nat := b64Table.indexOf v

/-- Modelled from the spec: the base64 encoding the C shim obtains from the
OpenSSL BIO encoder (no line breaks), produced three input bytes at a time
with padding on the final partial group. -/
def b64encBytes : List Nat → List Nat
  | [] => []
  | [b1] => [encB (b1 / 4), encB (b1 % 4 * 16), 61, 61]
  | [b1, b2] => [encB (b1 / 4), encB (b1 % 4 * 16 + b2 / 16), encB (b2 % 16 * 4), 61]
  | b1 :: b2 :: b3 :: rest =>
    encB (b1 / 4) :: encB (b1 % 4 * 16 + b2 / 16) :: encB (b2 % 16 * 4 + b3 / 64)
      :: encB (b3 % 64) :: b64encBytes rest

/-- Modelled from the spec: the base64 decoding the C shim obtains from the
OpenSSL BIO decoder, consuming four alphabet bytes at a time, with padding
bytes ending the stream. -/
def b64decBytes : List Nat → List Nat
  | v1 :: v2 :: v3 :: v4 :: rest =>
    let a := decB v1
    let b := decB v2
    if v3 = 61 then [a * 4 + b / 16]
    else
      let c := decB v3
      if v4 = 61 then [a * 4 + b / 16, b % 16 * 16 + c / 4]
      else (a * 4 + b / 16) :: (b % 16 * 16 + c / 4) :: (c % 4 * 64 + decB v4)
        :: b64decBytes rest
  | _ => []

namespace OpenSSL

/-- State of an OpenSSL facade object: the flag the constructor sets after
openssl_init succeeds (field initialized in the TypeScript class). -/
structure SSLState where
  initFlag : Bool
deriving DecidableEq, Repr

/-- Constructor tail of the OpenSSL class: openssl_init must return 1,
otherwise the constructor throws; on success the flag is set. -/
def mkOpenSSL (initStatus : Nat) : Except (List Char) SSLState :=
  if initStatus ≠ 1 then Except.error "Failed to initialize OpenSSL".data
  else Except.ok { initFlag := true }

/-- Method cleanup of the OpenSSL class: invoke openssl_cleanup and clear
the flag, but only when the flag is still set. -/
def cleanup (st : SSLState) : SSLState × List Ev :=
  if st.initFlag then ({ initFlag := false }, [Ev.invoke "openssl_cleanup"])
  else (st, [])

/-- Common shape of the five digest methods (sha1, sha256, sha384, sha512,
md5 in src/src/index.ts, which are identical up to digest length, foreign
procedure name and error message): malloc an input and an output buffer,
copy the input in, invoke the digest procedure, on status 1 read back the
fixed number of digest bytes, otherwise throw with the diagnostic; both
buffers are freed in the finally block on every path. -/
def digestOp (env : Env) (pname : String) (failMsg : List Char)
    (digestLength : Nat) (inputData : List Nat) :
    Except (List Char) (List Nat) × List Ev :=
  let dataPtr := env.allocs 0
  let digestPtr := env.allocs 1
  let evs := [Ev.alloc dataPtr inputData.length, Ev.alloc digestPtr digestLength,
    Ev.invoke pname, Ev.free dataPtr, Ev.free digestPtr]
  if env.status = 1 then
    (Except.ok ((List.range digestLength).map fun i => env.foreignOut i % 256), evs)
  else
    (Except.error (failMsg ++ env.errStr), evs)

/-- Method sha1 on byte input. -/
def sha1 (env : Env) (data : List Nat) : Except (List Char) (List Nat) × List Ev :=
  digestOp env "sha1_digest" "SHA-1 digest failed: ".data 20 data

/-- Method sha256 on byte input. -/
def sha256 (env : Env) (data : List Nat) : Except (List Char) (List Nat) × List Ev :=
  digestOp env "sha256_digest" "SHA-256 digest failed: ".data 32 data

/-- Method sha384 on byte input. -/
def sha384 (env : Env) (data : List Nat) : Except (List Char) (List Nat) × List Ev :=
  digestOp env "sha384_digest" "SHA-384 digest failed: ".data 48 data

/-- Method sha512 on byte input. -/
def sha512 (env : Env) (data : List Nat) : Except (List Char) (List Nat) × List Ev :=
  digestOp env "sha512_digest" "SHA-512 digest failed: ".data 64 data

/-- Method md5 on byte input. -/
def md5 (env : Env) (data : List Nat) : Except (List Char) (List Nat) × List Ev :=
  digestOp env "md5_digest" "MD5 digest failed: ".data 16 data

/-- Method sha1 on string input: the string is first encoded with
TextEncoder. -/
def sha1Str (env : Env) (s : List Char) : Except (List Char) (List Nat) × List Ev :=
  sha1 env (utf8Encode s)

/-- Method sha256 on string input. -/
def sha256Str (env : Env) (s : List Char) : Except (List Char) (List Nat) × List Ev :=
  sha256 env (utf8Encode s)

/-- Method sha384 on string input. -/
def sha384Str (env : Env) (s : List Char) : Except (List Char) (List Nat) × List Ev :=
  sha384 env (utf8Encode s)

/-- Method sha512 on string input. -/
def sha512Str (env : Env) (s : List Char) : Except (List Char) (List Nat) × List Ev :=
  sha512 env (utf8Encode s)

/-- Method md5 on string input. -/
def md5Str (env : Env) (s : List Char) : Except (List Char) (List Nat) × List Ev :=
  md5 env (utf8Encode s)

/-- Method randomBytes: malloc a buffer of the requested length, invoke
random_bytes, on status 1 read the buffer back, otherwise throw with the
diagnostic; the buffer is freed in the finally block on every path. -/
def randomBytes (env : Env) (length : Nat) : Except (List Char) (List Nat) × List Ev :=
  let ptr := env.allocs 0
  let evs := [Ev.alloc ptr length, Ev.invoke "random_bytes", Ev.free ptr]
  if env.status = 1 then
    (Except.ok ((List.range length).map fun i => env.foreignOut i % 256), evs)
  else
    (Except.error ("Failed to generate random bytes: ".data ++ env.errStr), evs)

/-- Method base64Encode: malloc an input buffer and a 4-byte out-length
buffer, copy the input in, invoke base64_encode (whose C shim mallocs the
NUL-terminated result string on the same foreign heap and returns its
pointer, or NULL when that malloc fails), throw on a NULL result, otherwise
read the result as a string and free it; the two buffers of the facade are
freed in the finally block on every path. -/
def base64Encode (env : Env) (data : List Nat) :
    Except (List Char) (List Char) × List Ev :=
  let dataPtr := env.allocs 0
  let outLenPtr := env.allocs 1
  let resultPtr := env.allocs 2
  let enc := b64encBytes data
  let pre := [Ev.alloc dataPtr data.length, Ev.alloc outLenPtr 4,
    Ev.invoke "base64_encode", Ev.alloc resultPtr (enc.length + 1)]
  if resultPtr = 0 then
    (Except.error ("Base64 encoding failed: ".data ++ env.errStr),
      pre ++ [Ev.free dataPtr, Ev.free outLenPtr])
  else
    (Except.ok (utf8ToStringAscii (enc ++ [0])),
      pre ++ [Ev.free resultPtr, Ev.free dataPtr, Ev.free outLenPtr])

/-- Method base64Decode: malloc an input buffer of byte size equal to the
string length and a 4-byte out-length buffer, write the string with
stringToUTF8 limited to length + 1 bytes, invoke base64_decode (whose C
shim mallocs a result buffer of the input length on the same foreign heap,
decodes into it, and returns its pointer, or NULL when that malloc fails),
throw on a NULL result, otherwise read out-length decoded bytes and free
the result buffer; the two buffers of the facade are freed in the finally
block on every path.  The input bytes the shim sees are the first
string-length bytes of the buffer: the written bytes, then residual heap
content if the write was shorter. -/
def base64Decode (env : Env) (s : List Char) :
    Except (List Char) (List Nat) × List Ev :=
  let dataPtr := env.allocs 0
  let outLenPtr := env.allocs 1
  let resultPtr := env.allocs 2
  let written := stringToUTF8Bytes s (s.length + 1)
  let inBytes := (written ++ (List.range (s.length - written.length)).map
    fun i => env.heap i % 256).take s.length
  let dec := b64decBytes inBytes
  let pre := [Ev.alloc dataPtr s.length, Ev.alloc outLenPtr 4,
    Ev.invoke "base64_decode", Ev.alloc resultPtr s.length]
  if resultPtr = 0 then
    (Except.error ("Base64 decoding failed: ".data ++ env.errStr),
      pre ++ [Ev.free dataPtr, Ev.free outLenPtr])
  else
    (Except.ok dec, pre ++ [Ev.free resultPtr, Ev.free dataPtr, Ev.free outLenPtr])

/-- Hexadecimal digit character used by Number.prototype.toString(16)
(lowercase). -/
def hexDigitCh (n : Nat) : Char :=
  if n < 10 then Char.ofNat (48 + n) else Char.ofNat (87 + n)

/-- One byte rendered by b.toString(16).padStart(2, the zero character):
two lowercase hexadecimal digits (exact for byte values below 256). -/
def toHexByte (n : Nat) : List Char := [hexDigitCh (n / 16), hexDigitCh (n % 16)]

/-- Method toHex: each byte to two lowercase hexadecimal characters,
joined. -/
def toHex (data : List Nat) : List Char := (data.map toHexByte).flatten

/-- Consecutive pairs of characters, as visited by the fromHex loop
(substring(i, i + 2) for even i; a trailing odd character cannot occur
because odd lengths are rejected first). -/
def pairsOf : List Char → List (Char × Char)
  | c1 :: c2 :: rest => (c1, c2) :: pairsOf rest
  | _ => []

/-- Method fromHex: reject odd lengths, then parse each character pair with
parseInt(chunk, 16) and store it into a Uint8Array element. -/
def fromHex (hex : List Char) : Except (List Char) (List Nat) :=
  if hex.length % 2 ≠ 0 then
    Except.error "Hex string must have an even number of characters".data
  else
    Except.ok ((pairsOf hex).map fun p => toUint8 (parseIntHex [p.1, p.2]))

/-- Names of the methods the OpenSSL class actually defines in
src/src/index.ts. -/
def methodNames : List String :=
  ["version", "cleanup", "randomBytes", "sha1", "sha256", "sha384", "sha512",
   "md5", "base64Encode", "base64Decode", "toHex", "fromHex"]

/-- Modelled from the spec: the public surface the spec (section 6) and the
repository documentation (docs/API.md, README.md) declare on the handle
returned by the asynchronous entry point. -/
def specHandleSurface : List String :=
  ["version", "cleanup", "randomBytes", "sha1", "sha256", "sha384", "sha512",
   "md5", "aesEncrypt", "aesDecrypt", "generateRsaKeyPair", "rsaEncrypt",
   "rsaDecrypt", "rsaSign", "rsaVerify", "base64Encode", "base64Decode",
   "toHex", "fromHex"]

end OpenSSL

/-- Environment of a run in which every allocation succeeds (distinct
nonzero pointers), every foreign procedure reports success and writes
zeros, and the error queue is empty. -/
def envOk : Env :=
  { allocs := fun n => n + 1, status := 1, foreignOut := fun _ => 0,
    heap := fun _ => 0, errStr := [] }

/-- Environment in which the invoked foreign procedure reports failure with
a one-character diagnostic. -/
def envFail : Env := { envOk with status := 0, errStr := ['e'] }

/-- Environment in which every allocation returns the zero sentinel. -/
def envNullAlloc : Env := { envOk with allocs := fun _ => 0 }

/-! Helper lemmas. -/

/-- Characters built from ASCII-range byte values keep their value. -/
theorem toNat_ofNat_ascii (v : Nat) (h : v < 128) : (Char.ofNat v).toNat = v := by
  have hv : v.isValidChar := Or.inl (by omega)
  rw [Char.ofNat, dif_pos hv]
  simp [Char.ofNatAux, Char.toNat, UInt32.toNat, BitVec.toNat_ofNatLt]

/-- Alphabet bytes are nonzero ASCII and are never the padding byte. -/
theorem encB_props : ∀ n < 64, encB n < 128 ∧ encB n ≠ 0 ∧ encB n ≠ 61 := by decide

/-- Decoding inverts the alphabet on 6-bit indices. -/
theorem decB_encB : ∀ n < 64, decB (encB n) = n := by decide

/-- The modelled base64 decoder inverts the modelled encoder on byte
sequences. -/
theorem b64decBytes_encBytes : ∀ b : List Nat, (∀ x ∈ b, x < 256) →
    b64decBytes (b64encBytes b) = b := by
  intro b
  induction b using b64encBytes.induct with
  | case1 => intro _; rfl
  | case2 b1 =>
    intro h
    have hb1 : b1 < 256 := h b1 (by simp)
    show b64decBytes [encB (b1 / 4), encB (b1 % 4 * 16), 61, 61] = [b1]
    simp only [b64decBytes, if_true]
    rw [decB_encB _ (by omega), decB_encB _ (by omega)]
    simp only [List.cons.injEq, and_true]
    omega
  | case3 b1 b2 =>
    intro h
    have hb1 : b1 < 256 := h b1 (by simp)
    have hb2 : b2 < 256 := h b2 (by simp)
    show b64decBytes [encB (b1 / 4), encB (b1 % 4 * 16 + b2 / 16),
      encB (b2 % 16 * 4), 61] = [b1, b2]
    simp only [b64decBytes]
    rw [if_neg (encB_props (b2 % 16 * 4) (by omega)).2.2]
    simp only [if_true]
    rw [decB_encB _ (by omega), decB_encB _ (by omega), decB_encB _ (by omega)]
    simp only [List.cons.injEq, and_true]
    constructor <;> omega
  | case4 b1 b2 b3 rest ih =>
    intro h
    have hb1 : b1 < 256 := h b1 (by simp)
    have hb2 : b2 < 256 := h b2 (by simp)
    have hb3 : b3 < 256 := h b3 (by simp)
    have hrest : ∀ x ∈ rest, x < 256 := fun x hx => h x (by simp [hx])
    show b64decBytes (encB (b1 / 4) :: encB (b1 % 4 * 16 + b2 / 16)
      :: encB (b2 % 16 * 4 + b3 / 64) :: encB (b3 % 64) :: b64encBytes rest)
      = b1 :: b2 :: b3 :: rest
    simp only [b64decBytes]
    rw [if_neg (encB_props (b2 % 16 * 4 + b3 / 64) (by omega)).2.2,
      if_neg (encB_props (b3 % 64) (by omega)).2.2]
    rw [decB_encB _ (by omega), decB_encB _ (by omega), decB_encB _ (by omega),
      decB_encB _ (by omega)]
    simp only [List.cons.injEq]
    refine ⟨by omega, by omega, by omega, ih hrest⟩

/-- Every byte of an encoding of byte values is nonzero and ASCII. -/
theorem b64encBytes_ascii : ∀ b : List Nat, (∀ x ∈ b, x < 256) →
    ∀ v ∈ b64encBytes b, v < 128 ∧ v ≠ 0 := by
  intro b
  induction b using b64encBytes.induct with
  | case1 => intro _ v hv; simp [b64encBytes] at hv
  | case2 b1 =>
    intro h v hv
    have hb1 : b1 < 256 := h b1 (by simp)
    simp only [b64encBytes, List.mem_cons, List.not_mem_nil, or_false] at hv
    rcases hv with h1 | h1 | h1 | h1 <;> subst h1
    · exact ⟨(encB_props _ (by omega)).1, (encB_props _ (by omega)).2.1⟩
    · exact ⟨(encB_props _ (by omega)).1, (encB_props _ (by omega)).2.1⟩
    · exact ⟨by omega, by omega⟩
    · exact ⟨by omega, by omega⟩
  | case3 b1 b2 =>
    intro h v hv
    have hb1 : b1 < 256 := h b1 (by simp)
    have hb2 : b2 < 256 := h b2 (by simp)
    simp only [b64encBytes, List.mem_cons, List.not_mem_nil, or_false] at hv
    rcases hv with h1 | h1 | h1 | h1 <;> subst h1
    · exact ⟨(encB_props _ (by omega)).1, (encB_props _ (by omega)).2.1⟩
    · exact ⟨(encB_props _ (by omega)).1, (encB_props _ (by omega)).2.1⟩
    · exact ⟨(encB_props _ (by omega)).1, (encB_props _ (by omega)).2.1⟩
    · exact ⟨by omega, by omega⟩
  | case4 b1 b2 b3 rest ih =>
    intro h v hv
    have hb1 : b1 < 256 := h b1 (by simp)
    have hb2 : b2 < 256 := h b2 (by simp)
    have hb3 : b3 < 256 := h b3 (by simp)
    have hrest : ∀ x ∈ rest, x < 256 := fun x hx => h x (by simp [hx])
    simp only [b64encBytes, List.mem_cons] at hv
    rcases hv with h1 | h1 | h1 | h1 | h1
    · exact h1 ▸ ⟨(encB_props _ (by omega)).1, (encB_props _ (by omega)).2.1⟩
    · exact h1 ▸ ⟨(encB_props _ (by omega)).1, (encB_props _ (by omega)).2.1⟩
    · exact h1 ▸ ⟨(encB_props _ (by omega)).1, (encB_props _ (by omega)).2.1⟩
    · exact h1 ▸ ⟨(encB_props _ (by omega)).1, (encB_props _ (by omega)).2.1⟩
    · exact ih hrest v h1

/-- A NUL-terminated buffer whose content bytes are nonzero reads back as
exactly the content. -/
theorem takeWhile_ne_zero_append (l : List Nat) (h : ∀ v ∈ l, v ≠ 0) :
    (l ++ [0]).takeWhile (fun b => b ≠ 0) = l := by
  induction l with
  | nil => rfl
  | cons a t ih =>
    have ha : a ≠ 0 := h a (by simp)
    rw [List.cons_append, List.takeWhile_cons_of_pos (by simpa using ha),
      ih (fun v hv => h v (by simp [hv]))]

/-- ASCII characters encode to their single code-point byte. -/
theorem utf8Bytes_ascii (c : Char) (h : c.toNat < 128) : utf8Bytes c = [c.toNat] := by
  simp [utf8Bytes, h]

/-- A fitting ASCII string is written whole by the truncating UTF-8 write. -/
theorem utf8Trunc_ascii : ∀ (s : List Char) (budget : Nat),
    (∀ c ∈ s, c.toNat < 128) → s.length ≤ budget →
    utf8Trunc s budget = s.map Char.toNat := by
  intro s
  induction s with
  | nil => intro budget _ _; rfl
  | cons c t ih =>
    intro budget h hlen
    have hc : c.toNat < 128 := h c (by simp)
    simp only [utf8Trunc, utf8Bytes_ascii c hc]
    rw [if_pos (by simp at hlen ⊢; omega)]
    simp only [List.length_cons] at hlen
    simp [ih (budget - 1) (fun x hx => h x (by simp [hx])) (by omega)]

/-- Reading ASCII byte values as characters and back is the identity. -/
theorem map_toNat_map_ofNat (l : List Nat) (h : ∀ v ∈ l, v < 128) :
    (l.map Char.ofNat).map Char.toNat = l := by
  induction l with
  | nil => rfl
  | cons a t ih =>
    simp [toNat_ofNat_ascii a (h a (by simp)),
      ih (fun v hv => h v (by simp [hv]))]

set_option maxRecDepth 10000 in
/-- Parsing the two-digit lowercase rendering of a byte recovers the byte. -/
theorem parse_toHexByte : ∀ x < 256,
    toUint8 (parseIntHex (OpenSSL.toHexByte x)) = x := by decide

/-- Lowercase hexadecimal characters: the digits then the first six
lowercase letters. -/
def lowerHexChars : List Char :=
  (List.range 10).map (fun n => Char.ofNat (48 + n))
    ++ (List.range 6).map (fun n => Char.ofNat (97 + n))

set_option maxRecDepth 10000 in
/-- The two-digit rendering of a byte uses only lowercase hexadecimal
characters. -/
theorem toHexByte_chars : ∀ x < 256,
    (OpenSSL.toHexByte x).all (fun c => lowerHexChars.contains c) = true := by decide

/-- Length of the hex rendering: two characters per byte. -/
theorem toHex_length (b : List Nat) : (OpenSSL.toHex b).length = 2 * b.length := by
  induction b with
  | nil => rfl
  | cons a t ih =>
    show (OpenSSL.toHexByte a ++ OpenSSL.toHex t).length = 2 * (a :: t).length
    simp only [List.length_append, List.length_cons, ih, OpenSSL.toHexByte]
    simp
    omega

/-- The fromHex pair decomposition of a hex rendering visits exactly the
digit pair of each byte. -/
theorem pairsOf_toHex (b : List Nat) :
    OpenSSL.pairsOf (OpenSSL.toHex b)
      = b.map fun x => (OpenSSL.hexDigitCh (x / 16), OpenSSL.hexDigitCh (x % 16)) := by
  induction b with
  | nil => rfl
  | cons a t ih =>
    show OpenSSL.pairsOf (OpenSSL.hexDigitCh (a / 16) :: OpenSSL.hexDigitCh (a % 16)
      :: OpenSSL.toHex t) = _
    simp only [OpenSSL.pairsOf, ih, List.map_cons]

/-- Parsing back the rendered digit pairs of a byte sequence recovers it. -/
theorem fromHex_toHex_aux (b : List Nat) (h : ∀ x ∈ b, x < 256) :
    (b.map fun x => toUint8 (parseIntHex [OpenSSL.hexDigitCh (x / 16),
      OpenSSL.hexDigitCh (x % 16)])) = b := by
  induction b with
  | nil => rfl
  | cons a t ih =>
    have ha := parse_toHexByte a (h a (by simp))
    simp only [OpenSSL.toHexByte] at ha
    simp [ha, ih (fun x hx => h x (by simp [hx]))]

/-- All characters of a hex rendering are lowercase hexadecimal. -/
theorem toHex_hexchars (b : List Nat) (h : ∀ x ∈ b, x < 256) :
    (OpenSSL.toHex b).all (fun c => lowerHexChars.contains c) = true := by
  induction b with
  | nil => rfl
  | cons a t ih =>
    show (OpenSSL.toHexByte a ++ OpenSSL.toHex t).all _ = true
    simp only [List.all_append, Bool.and_eq_true]
    exact ⟨toHexByte_chars a (h a (by simp)), ih (fun x hx => h x (by simp [hx]))⟩

/-- The pair decomposition halves the length (rounding down). -/
theorem pairsOf_length : ∀ l : List Char, (OpenSSL.pairsOf l).length = l.length / 2 := by
  intro l
  induction l using OpenSSL.pairsOf.induct with
  | case1 c1 c2 rest ih =>
    simp only [OpenSSL.pairsOf, List.length_cons, ih]
    omega
  | case2 l h =>
    cases l with
    | nil => simp [OpenSSL.pairsOf]
    | cons a t =>
      cases t with
      | nil => simp [OpenSSL.pairsOf]
      | cons b r => exact absurd rfl (h a b r)

/-- A successful digest operation returns exactly the declared number of
bytes. -/
theorem digestOp_ok_length (env : Env) (pname : String) (failMsg : List Char)
    (len : Nat) (input r : List Nat)
    (h : (OpenSSL.digestOp env pname failMsg len input).1 = Except.ok r) :
    r.length = len := by
  unfold OpenSSL.digestOp at h
  split at h
  · simp only [Except.ok.injEq] at h
    rw [← h]
    simp
  · simp at h

/-! Claim theorems. -/

/-- C2 (code bug in the facade): the handle does not provide the declared
AES and RSA operations.  The OpenSSL class defines none of aesEncrypt,
aesDecrypt, generateRsaKeyPair, rsaEncrypt, rsaDecrypt, rsaSign, rsaVerify,
although the spec and the repository documentation (docs/API.md, README.md)
declare them on the handle; the methods the class does define are all in
the declared surface. -/
theorem c2_handle_surface_incomplete :
    ("aesEncrypt" ∈ OpenSSL.specHandleSurface ∧ "aesEncrypt" ∉ OpenSSL.methodNames)
    ∧ ("aesDecrypt" ∈ OpenSSL.specHandleSurface ∧ "aesDecrypt" ∉ OpenSSL.methodNames)
    ∧ ("generateRsaKeyPair" ∈ OpenSSL.specHandleSurface
        ∧ "generateRsaKeyPair" ∉ OpenSSL.methodNames)
    ∧ ("rsaEncrypt" ∈ OpenSSL.specHandleSurface ∧ "rsaEncrypt" ∉ OpenSSL.methodNames)
    ∧ ("rsaDecrypt" ∈ OpenSSL.specHandleSurface ∧ "rsaDecrypt" ∉ OpenSSL.methodNames)
    ∧ ("rsaSign" ∈ OpenSSL.specHandleSurface ∧ "rsaSign" ∉ OpenSSL.methodNames)
    ∧ ("rsaVerify" ∈ OpenSSL.specHandleSurface ∧ "rsaVerify" ∉ OpenSSL.methodNames)
    ∧ (OpenSSL.methodNames.all fun m => OpenSSL.specHandleSurface.contains m) = true := by
  decide

/-- C3 counterexample: with an allocator returning the zero sentinel for
every allocation, sha256 performs no sentinel check: it still invokes the
foreign digest procedure and returns a success value instead of signaling
an allocation failure. -/
theorem c3_counterexample_null_alloc :
    envNullAlloc.allocs 0 = 0
      ∧ Ev.invoke "sha256_digest" ∈ (OpenSSL.sha256 envNullAlloc [1]).2
      ∧ (OpenSSL.sha256 envNullAlloc [1]).1 = Except.ok (List.replicate 32 0) := by
  refine ⟨rfl, by decide, rfl⟩

/-- C3 amended: the operations perform no allocation-sentinel check at
all: whatever pointers the allocator returns (the zero sentinel included),
the foreign procedure is still invoked and no allocation failure is
signaled; the buffers already allocated are nevertheless released, because
the unconditional cleanup issues one free per allocate of the facade on
every exit path. -/
theorem c3_amended_no_sentinel_check :
    ∀ (env : Env) (data : List Nat) (n : Nat),
      Ev.invoke "sha256_digest" ∈ (OpenSSL.sha256 env data).2
      ∧ freePtrs (OpenSSL.sha256 env data).2 = [env.allocs 0, env.allocs 1]
      ∧ Ev.invoke "random_bytes" ∈ (OpenSSL.randomBytes env n).2
      ∧ freePtrs (OpenSSL.randomBytes env n).2 = [env.allocs 0] := by
  intro env data n
  refine ⟨?_, ?_, ?_, ?_⟩ <;>
    first
    | (unfold OpenSSL.sha256 OpenSSL.digestOp
       split <;> simp [freePtrs])
    | (unfold OpenSSL.randomBytes
       split <;> simp [freePtrs])

/-- C4: for every input, byte sequence or text, of any length including
zero, a digest operation that returns at all returns exactly its
documented fixed byte length: md5 16 bytes, sha1 20, sha256 32, sha384 48,
sha512 64. -/
theorem c4_digest_output_lengths :
    ∀ (env : Env) (d : List Nat) (s : List Char) (r : List Nat),
      ((OpenSSL.md5 env d).1 = Except.ok r → r.length = 16)
      ∧ ((OpenSSL.sha1 env d).1 = Except.ok r → r.length = 20)
      ∧ ((OpenSSL.sha256 env d).1 = Except.ok r → r.length = 32)
      ∧ ((OpenSSL.sha384 env d).1 = Except.ok r → r.length = 48)
      ∧ ((OpenSSL.sha512 env d).1 = Except.ok r → r.length = 64)
      ∧ ((OpenSSL.md5Str env s).1 = Except.ok r → r.length = 16)
      ∧ ((OpenSSL.sha1Str env s).1 = Except.ok r → r.length = 20)
      ∧ ((OpenSSL.sha256Str env s).1 = Except.ok r → r.length = 32)
      ∧ ((OpenSSL.sha384Str env s).1 = Except.ok r → r.length = 48)
      ∧ ((OpenSSL.sha512Str env s).1 = Except.ok r → r.length = 64) := by
  intro env d s r
  exact ⟨digestOp_ok_length env _ _ _ _ r, digestOp_ok_length env _ _ _ _ r,
    digestOp_ok_length env _ _ _ _ r, digestOp_ok_length env _ _ _ _ r,
    digestOp_ok_length env _ _ _ _ r, digestOp_ok_length env _ _ _ _ r,
    digestOp_ok_length env _ _ _ _ r, digestOp_ok_length env _ _ _ _ r,
    digestOp_ok_length env _ _ _ _ r, digestOp_ok_length env _ _ _ _ r⟩

/-- C4 witness: a successful sha256 run on the empty input returns 32
bytes. -/
theorem c4_digest_output_lengths_witness :
    (OpenSSL.sha256 envOk []).1 = Except.ok (List.replicate 32 0)
      ∧ (List.replicate 32 0).length = 32 := by
  constructor
  · rfl
  · exact (c4_digest_output_lengths envOk [] [] (List.replicate 32 0)).2.2.1 rfl

/-- C7: randomBytes returns exactly the requested number of bytes on
success, and when the generator reports failure it throws an error whose
message carries the diagnostic string from get_error_string instead of
returning data. -/
theorem c7_randomBytes_contract :
    ∀ (env : Env) (n : Nat),
      (∀ r, (OpenSSL.randomBytes env n).1 = Except.ok r → r.length = n)
      ∧ (env.status ≠ 1 → (OpenSSL.randomBytes env n).1
          = Except.error ("Failed to generate random bytes: ".data ++ env.errStr)) := by
  intro env n
  constructor
  · intro r h
    simp only [OpenSSL.randomBytes] at h
    split at h
    · simp only [Except.ok.injEq] at h
      rw [← h]
      simp
    · simp at h
  · intro hst
    simp only [OpenSSL.randomBytes]
    rw [if_neg hst]

/-- C7 witness: a successful run of 16 bytes, and a failing run carrying
the diagnostic. -/
theorem c7_randomBytes_contract_witness :
    ((OpenSSL.randomBytes envOk 16).1 = Except.ok (List.replicate 16 0)
      ∧ (List.replicate 16 0).length = 16)
    ∧ (envFail.status ≠ 1
      ∧ (OpenSSL.randomBytes envFail 16).1
          = Except.error "Failed to generate random bytes: e".data) := by
  refine ⟨⟨rfl, ?_⟩, by decide, ?_⟩
  · exact (c7_randomBytes_contract envOk 16).1 _ rfl
  · exact (c7_randomBytes_contract envFail 16).2 (by decide)

/-- C8 counterexample: fromHex applied to the even-length string of two z
characters, which are not hexadecimal digits, returns the byte 0 instead
of signaling a failure. -/
theorem c8_counterexample_fromHex_zz :
    OpenSSL.fromHex ['z', 'z'] = Except.ok [0]
      ∧ ['z', 'z'].length % 2 = 0
      ∧ isHexDigitCh 'z' = false := by
  exact ⟨rfl, rfl, rfl⟩

/-- C8 amended: fromHex signals a failure only for odd-length input; on
every even-length string, including strings containing non-hexadecimal
characters, it succeeds and returns one byte per character pair (each pair
parsed like JavaScript parseInt with NaN coerced to 0), so malformed pairs
silently become zero bytes rather than failures. -/
theorem c8_amended_fromHex_total_on_even :
    ∀ s : List Char, s.length % 2 = 0 →
      (OpenSSL.fromHex s).isOk = true
      ∧ ∀ bs, OpenSSL.fromHex s = Except.ok bs → bs.length = s.length / 2 := by
  intro s h
  constructor
  · unfold OpenSSL.fromHex
    rw [if_neg (by omega)]
    rfl
  · intro bs hbs
    unfold OpenSSL.fromHex at hbs
    rw [if_neg (by omega)] at hbs
    simp only [Except.ok.injEq] at hbs
    rw [← hbs, List.length_map, pairsOf_length]

/-- C8 witness: a four-character string with a malformed first pair
decodes without failure into two bytes. -/
theorem c8_amended_fromHex_total_on_even_witness :
    (['z', 'z', 'a', 'b'] : List Char).length % 2 = 0
      ∧ (OpenSSL.fromHex ['z', 'z', 'a', 'b']).isOk = true
      ∧ OpenSSL.fromHex ['z', 'z', 'a', 'b'] = Except.ok [0, 171]
      ∧ ([0, 171] : List Nat).length = ['z', 'z', 'a', 'b'].length / 2 := by
  refine ⟨rfl, (c8_amended_fromHex_total_on_even ['z', 'z', 'a', 'b'] (by decide)).1, rfl,
    (c8_amended_fromHex_total_on_even ['z', 'z', 'a', 'b'] (by decide)).2 _ rfl⟩

/-- C10: cleanup is idempotent: the first call on an initialized handle
invokes the foreign cleanup routine and clears the flag; every subsequent
call on the resulting state invokes no foreign procedure and leaves the
state unchanged. -/
theorem c10_cleanup_idempotent :
    (OpenSSL.cleanup { initFlag := true }).1 = { initFlag := false }
      ∧ (OpenSSL.cleanup { initFlag := true }).2 = [Ev.invoke "openssl_cleanup"]
      ∧ ∀ st : OpenSSL.SSLState,
          OpenSSL.cleanup (OpenSSL.cleanup st).1 = ((OpenSSL.cleanup st).1, []) := by
  refine ⟨rfl, rfl, ?_⟩
  intro st
  cases st with
  | mk b => cases b <;> rfl

/-- C1: with a succeeding allocator, every operation that allocates
foreign memory releases exactly the buffers that were allocated during the
call — the multiset of freed pointers equals the multiset of allocated
pointers, counting the result buffer the C shim allocates for the base64
operations — on the success path and on every failure path alike (the
status of the foreign call is unconstrained), for all eight operations. -/
theorem c1_alloc_free_balance :
    ∀ (env : Env) (data : List Nat) (s : List Char) (n : Nat),
      env.allocs 0 ≠ 0 → env.allocs 1 ≠ 0 → env.allocs 2 ≠ 0 →
      (allocPtrs (OpenSSL.randomBytes env n).2).Perm
          (freePtrs (OpenSSL.randomBytes env n).2)
      ∧ (allocPtrs (OpenSSL.sha1 env data).2).Perm
          (freePtrs (OpenSSL.sha1 env data).2)
      ∧ (allocPtrs (OpenSSL.sha256 env data).2).Perm
          (freePtrs (OpenSSL.sha256 env data).2)
      ∧ (allocPtrs (OpenSSL.sha384 env data).2).Perm
          (freePtrs (OpenSSL.sha384 env data).2)
      ∧ (allocPtrs (OpenSSL.sha512 env data).2).Perm
          (freePtrs (OpenSSL.sha512 env data).2)
      ∧ (allocPtrs (OpenSSL.md5 env data).2).Perm
          (freePtrs (OpenSSL.md5 env data).2)
      ∧ (allocPtrs (OpenSSL.base64Encode env data).2).Perm
          (freePtrs (OpenSSL.base64Encode env data).2)
      ∧ (allocPtrs (OpenSSL.base64Decode env s).2).Perm
          (freePtrs (OpenSSL.base64Decode env s).2) := by
  intro env data s n h0 h1 h2
  refine ⟨?_, ?_, ?_, ?_, ?_, ?_, ?_, ?_⟩
  · unfold OpenSSL.randomBytes
    split <;>
      · simp only [allocPtrs, freePtrs, List.filterMap_cons, List.filterMap_nil]
        exact List.Perm.refl _
  · unfold OpenSSL.sha1 OpenSSL.digestOp
    split <;>
      · simp only [allocPtrs, freePtrs, List.filterMap_cons, List.filterMap_nil]
        exact List.Perm.refl _
  · unfold OpenSSL.sha256 OpenSSL.digestOp
    split <;>
      · simp only [allocPtrs, freePtrs, List.filterMap_cons, List.filterMap_nil]
        exact List.Perm.refl _
  · unfold OpenSSL.sha384 OpenSSL.digestOp
    split <;>
      · simp only [allocPtrs, freePtrs, List.filterMap_cons, List.filterMap_nil]
        exact List.Perm.refl _
  · unfold OpenSSL.sha512 OpenSSL.digestOp
    split <;>
      · simp only [allocPtrs, freePtrs, List.filterMap_cons, List.filterMap_nil]
        exact List.Perm.refl _
  · unfold OpenSSL.md5 OpenSSL.digestOp
    split <;>
      · simp only [allocPtrs, freePtrs, List.filterMap_cons, List.filterMap_nil]
        exact List.Perm.refl _
  · simp only [OpenSSL.base64Encode]
    rw [if_neg h2]
    simp only [allocPtrs, freePtrs, List.filterMap_append, List.filterMap_cons,
      List.filterMap_nil, List.append_nil, List.nil_append]
    exact List.perm_append_singleton (env.allocs 2) [env.allocs 0, env.allocs 1]
  · simp only [OpenSSL.base64Decode]
    rw [if_neg h2]
    simp only [allocPtrs, freePtrs, List.filterMap_append, List.filterMap_cons,
      List.filterMap_nil, List.append_nil, List.nil_append]
    exact List.perm_append_singleton (env.allocs 2) [env.allocs 0, env.allocs 1]

/-- C1 witness: the balance at a concrete succeeding environment, for the
base64Encode operation (the one whose trace also contains the shim-side
result-buffer allocation). -/
theorem c1_alloc_free_balance_witness :
    (envOk.allocs 0 ≠ 0 ∧ envOk.allocs 1 ≠ 0 ∧ envOk.allocs 2 ≠ 0)
    ∧ (allocPtrs (OpenSSL.base64Encode envOk [1, 2]).2).Perm
        (freePtrs (OpenSSL.base64Encode envOk [1, 2]).2) := by
  refine ⟨⟨by decide, by decide, by decide⟩, ?_⟩
  exact (c1_alloc_free_balance envOk [1, 2] [] 0 (by decide) (by decide)
    (by decide)).2.2.2.2.2.2.1

/-- C5: for every byte sequence, fromHex inverts toHex, and toHex produces
exactly two characters per byte, all of them lowercase hexadecimal. -/
theorem c5_hex_roundtrip :
    ∀ b : List Nat, isBytes b = true →
      OpenSSL.fromHex (OpenSSL.toHex b) = Except.ok b
      ∧ (OpenSSL.toHex b).length = 2 * b.length
      ∧ (OpenSSL.toHex b).all (fun c => lowerHexChars.contains c) = true := by
  intro b hb
  have hb' : ∀ x ∈ b, x < 256 := by
    simpa [isBytes, List.all_eq_true, decide_eq_true_eq] using hb
  refine ⟨?_, toHex_length b, toHex_hexchars b hb'⟩
  unfold OpenSSL.fromHex
  rw [if_neg (by rw [toHex_length]; omega)]
  rw [pairsOf_toHex, List.map_map]
  exact congrArg Except.ok (fromHex_toHex_aux b hb')

/-- C5 witness at a concrete byte sequence. -/
theorem c5_hex_roundtrip_witness :
    isBytes [0, 171, 255] = true
    ∧ OpenSSL.fromHex (OpenSSL.toHex [0, 171, 255]) = Except.ok [0, 171, 255]
    ∧ (OpenSSL.toHex [0, 171, 255]).length = 2 * ([0, 171, 255] : List Nat).length
    ∧ (OpenSSL.toHex [0, 171, 255]).all (fun c => lowerHexChars.contains c) = true := by
  have h := c5_hex_roundtrip [0, 171, 255] (by decide)
  exact ⟨by decide, h.1, h.2.1, h.2.2⟩

/-- C9: base64Decode allocates a foreign input buffer of exactly the
string length (visible as the size of the first allocation event of its
trace) but writes the string into it with stringToUTF8 limited to
length + 1 bytes, so for a nonempty ASCII input the write puts
length + 1 bytes — the encoded characters plus the NUL terminator — into
the length-byte buffer, one byte past its allocated size. -/
theorem c9_base64Decode_overflow :
    ∀ (env : Env) (s : List Char), isAscii s = true → s ≠ [] →
      Ev.alloc (env.allocs 0) s.length ∈ (OpenSSL.base64Decode env s).2
      ∧ (stringToUTF8Bytes s (s.length + 1)).length = s.length + 1 := by
  intro env s hascii hne
  have hs : ∀ c ∈ s, c.toNat < 128 := by
    simpa [isAscii, List.all_eq_true, decide_eq_true_eq] using hascii
  constructor
  · simp only [OpenSSL.base64Decode]
    split <;> simp
  · unfold stringToUTF8Bytes
    rw [if_neg (by omega)]
    rw [Nat.add_sub_cancel, utf8Trunc_ascii s s.length hs (le_refl _)]
    simp

/-- C9 witness at a concrete four-character ASCII string. -/
theorem c9_base64Decode_overflow_witness :
    isAscii ['T', 'W', 'F', 'u'] = true
    ∧ (['T', 'W', 'F', 'u'] : List Char) ≠ []
    ∧ Ev.alloc 1 4 ∈ (OpenSSL.base64Decode envOk ['T', 'W', 'F', 'u']).2
    ∧ (stringToUTF8Bytes ['T', 'W', 'F', 'u'] 5).length = 5 := by
  have h := c9_base64Decode_overflow envOk ['T', 'W', 'F', 'u'] (by decide) (by decide)
  exact ⟨by decide, by decide, h.1, h.2⟩

/-- C6: for every byte sequence, the empty one included, base64Decode
inverts base64Encode: whenever base64Encode succeeds with string s,
base64Decode on s succeeds with the original bytes (the base64 codec of
the external library is modelled from the spec). -/
theorem c6_base64_roundtrip :
    ∀ (env1 env2 : Env) (b : List Nat) (s : List Char),
      isBytes b = true →
      env1.allocs 2 ≠ 0 → env2.allocs 2 ≠ 0 →
      (OpenSSL.base64Encode env1 b).1 = Except.ok s →
      (OpenSSL.base64Decode env2 s).1 = Except.ok b := by
  intro env1 env2 b s hb h1 h2 henc
  have hb' : ∀ x ∈ b, x < 256 := by
    simpa [isBytes, List.all_eq_true, decide_eq_true_eq] using hb
  have hasc := b64encBytes_ascii b hb'
  have hs : s = (b64encBytes b).map Char.ofNat := by
    simp only [OpenSSL.base64Encode] at henc
    rw [if_neg h1] at henc
    simp only [Except.ok.injEq] at henc
    rw [← henc]
    unfold utf8ToStringAscii
    rw [takeWhile_ne_zero_append _ (fun v hv => (hasc v hv).2)]
  subst hs
  have hchars : ∀ c ∈ (b64encBytes b).map Char.ofNat, c.toNat < 128 := by
    intro c hc
    rcases List.mem_map.mp hc with ⟨v, hv, hvc⟩
    rw [← hvc, toNat_ofNat_ascii v (hasc v hv).1]
    exact (hasc v hv).1
  have hwritten : stringToUTF8Bytes ((b64encBytes b).map Char.ofNat)
      (((b64encBytes b).map Char.ofNat).length + 1) = b64encBytes b ++ [0] := by
    unfold stringToUTF8Bytes
    rw [if_neg (by omega), Nat.add_sub_cancel,
      utf8Trunc_ascii _ _ hchars (le_refl _),
      map_toNat_map_ofNat _ (fun v hv => (hasc v hv).1)]
  simp only [OpenSSL.base64Decode]
  rw [if_neg h2, hwritten]
  simp only [List.length_append, List.length_map, List.length_cons,
    List.length_nil, Nat.add_zero]
  have hz : (b64encBytes b).length - ((b64encBytes b).length + (0 + 1)) = 0 := by omega
  rw [hz]
  simp only [List.range_zero, List.map_nil, List.append_nil]
  rw [List.take_left, b64decBytes_encBytes b hb']

/-- C6 witness: the concrete round trip of the bytes 1, 2, 3, 4 through
the string AQIDBA with two padding characters. -/
theorem c6_base64_roundtrip_witness :
    isBytes [1, 2, 3, 4] = true
    ∧ envOk.allocs 2 ≠ 0
    ∧ (OpenSSL.base64Encode envOk [1, 2, 3, 4]).1
        = Except.ok ['A', 'Q', 'I', 'D', 'B', 'A', '=', '=']
    ∧ (OpenSSL.base64Decode envOk ['A', 'Q', 'I', 'D', 'B', 'A', '=', '=']).1
        = Except.ok [1, 2, 3, 4] := by
  refine ⟨by decide, by decide, rfl, ?_⟩
  exact c6_base64_roundtrip envOk envOk [1, 2, 3, 4]
    ['A', 'Q', 'I', 'D', 'B', 'A', '=', '='] (by decide) (by decide) (by decide) rfl
